import Mathlib

/-!
Shallow embedding of the authentication/session core and the read-through
user cache of the contacts REST API.

Modelled source files:
* src/database/models.py   (class User)
* src/repository/users.py  (get_user_by_email_from_db, get_user_by_email,
                            create_user, update_token, confirmed_email,
                            update_password, update_avatar)
* src/services/auth.py     (class Auth: token creation and decoding,
                            get_current_user)
* src/routes/auth.py       (signup, login, refresh_token, confirmed_email,
                            request_email, password_reset,
                            confirm_password_reset, new_password)

Conventions:
* The relational store is a list of user rows; `first()` on a filtered query
  is `List.find?`.
* The redis cache is an association list from keys to the pickled lookup
  result; a pickled `None` is a present entry with value `none`.
* Python exceptions are explicit: `fastapi.HTTPException` as well as the
  uncaught `KeyError` / `AttributeError` / redis `DataError` that some code
  paths can raise.  Every handler returns the raised-or-returned value
  together with the post state, because database commits that happened
  before an exception persist.
* `jwt.decode` and `jwt.encode`, bcrypt hashing and password verification
  are external collaborators; their outcomes are passed in as parameters.
* Time is in seconds; `datetime.now()` is a `Nat` parameter.
-/

/-- A user row of the `users` table (src/database/models.py, class User).
The `created_at` column is not modelled: no claim mentions it. -/
structure UserRec where
  id : Nat
  username : String
  email : String
  password : String
  confirmed : Bool
  avatar : String
  refresh_token : Option String
deriving Repr, DecidableEq

/-- Python exceptions that the modelled code can raise. -/
inductive PyExc where
  /-- fastapi.HTTPException with a status code and a detail message. -/
  | http (status : Nat) (detail : String)
  /-- Python KeyError raised by a dict subscript on a missing key. -/
  | keyError (key : String)
  /-- Python AttributeError raised by attribute access on None. -/
  | attributeError
  /-- redis-py DataError raised when the key passed to redis is None. -/
  | dataError
deriving Repr, DecidableEq

/-- Whether an exception is an HTTP 401 Unauthorized. -/
def PyExc.isUnauthorized : PyExc → Bool
  | .http 401 _ => true
  | _ => false

/-- The redis user cache: keys are emails, values are the pickled result of
the database lookup (`dumps(user)`), which may be a pickled None. -/
abbrev Cache := List (String × Option UserRec)

/-- The combined state seen by the session core: the users table of the
relational store and the redis cache. -/
structure State where
  db : List UserRec
  cache : Cache
deriving Repr, DecidableEq

/-- db.query(User).filter(User.email == email).first() -/
def findUserByEmail (db : List UserRec) (email : String) : Option UserRec :=
  db.find? (fun u => u.email == email)

/-- redis_db.get k: the stored dump for k, when the key is present. -/
def cacheGet : Cache → String → Option (Option UserRec)
  | [], _ => none
  | p :: c, k => if p.1 = k then some p.2 else cacheGet c k

/-- redis_db.delete k: the key is gone afterwards. -/
def cacheDel : Cache → String → Cache
  | [], _ => []
  | p :: c, k => if p.1 = k then cacheDel c k else p :: cacheDel c k

/-- redis_db.set k v: overwrites any previous value stored under k. -/
def cacheSet (c : Cache) (k : String) (v : Option UserRec) : Cache :=
  (k, v) :: cacheDel c k

/-- The recurring pattern `user_dump = redis_db.get(e); if user_dump:
redis_db.delete(e)`.  A pickled dump is never the empty byte string, so the
truthiness test is exactly key presence. -/
def cacheDropIfPresent (c : Cache) (e : String) : Cache :=
  if (cacheGet c e).isSome then cacheDel c e else c

/-- src/repository/users.py get_user_by_email_from_db: plain database
lookup, no cache involved. -/
def get_user_by_email_from_db (email : String) (s : State) : Option UserRec :=
  findUserByEmail s.db email

/-- src/repository/users.py get_user_by_email: read-through cached lookup.
On a cache miss the database result is pickled into the cache, even when it
is None; on a hit the pickled value is returned without touching the
database. -/
def get_user_by_email (email : String) (s : State) : Option UserRec × State :=
  match cacheGet s.cache email with
  | none =>
      let user := findUserByEmail s.db email
      (user, { s with cache := cacheSet s.cache email user })
  | some v => (v, s)

/-- In-place mutation of the first row matching the email, followed by
commit.  When no row matches, the caller's attribute assignment on None
raises AttributeError; that case is handled at each call site. -/
def dbUpdateFirst : List UserRec → String → (UserRec → UserRec) → List UserRec
  | [], _, _ => []
  | u :: rest, email, f =>
      if u.email == email then f u :: rest else u :: dbUpdateFirst rest email f

/-- The pydantic UserModel (src/schemas.py): the signup request body. -/
structure UserModel where
  username : String
  email : String
  password : String
deriving Repr, DecidableEq

/-- src/repository/users.py create_user.  The row id is chosen by the
database and modelled as the next serial value; `confirmed` and
`refresh_token` take the column defaults (False and NULL) because the
request body has no such fields; `avatar` is overwritten with the empty
string.  Any pre-existing cache entry for the new email is deleted before
returning. -/
def create_user (body : UserModel) (s : State) : UserRec × State :=
  let new_user : UserRec :=
    { id := s.db.length + 1, username := body.username, email := body.email,
      password := body.password, confirmed := false, avatar := "",
      refresh_token := none }
  (new_user,
   { db := s.db ++ [new_user], cache := cacheDropIfPresent s.cache new_user.email })

/-- src/repository/users.py update_token: re-fetches the row by the given
user's email, sets its refresh_token, commits, then deletes the cache entry
for that email when present.  A missing row raises AttributeError. -/
def update_token (cache_user : UserRec) (token : Option String) (s : State) :
    Except PyExc Unit × State :=
  match findUserByEmail s.db cache_user.email with
  | none => (.error .attributeError, s)
  | some user =>
      (.ok (),
       { db := dbUpdateFirst s.db cache_user.email (fun v => { v with refresh_token := token }),
         cache := cacheDropIfPresent s.cache user.email })

/-- src/repository/users.py confirmed_email: re-fetches the row by email,
sets confirmed = True, commits, then deletes the cache entry for that email
when present.  A missing row raises AttributeError. -/
def confirmed_email (email : String) (s : State) : Except PyExc Unit × State :=
  match findUserByEmail s.db email with
  | none => (.error .attributeError, s)
  | some _ =>
      (.ok (),
       { db := dbUpdateFirst s.db email (fun v => { v with confirmed := true }),
         cache := cacheDropIfPresent s.cache email })

/-- src/repository/users.py update_password: re-fetches the row by the given
user's email, sets its password, commits, then deletes the cache entry for
that email when present. -/
def update_password (cache_user : UserRec) (password : String) (s : State) :
    Except PyExc Unit × State :=
  match findUserByEmail s.db cache_user.email with
  | none => (.error .attributeError, s)
  | some user =>
      (.ok (),
       { db := dbUpdateFirst s.db cache_user.email (fun v => { v with password := password }),
         cache := cacheDropIfPresent s.cache user.email })

/-- src/repository/users.py update_avatar: re-fetches the row by email, sets
its avatar url, commits, deletes the cache entry for that email when
present, and returns the mutated row. -/
def update_avatar (email : String) (url : String) (s : State) :
    Except PyExc UserRec × State :=
  match findUserByEmail s.db email with
  | none => (.error .attributeError, s)
  | some user =>
      (.ok { user with avatar := url },
       { db := dbUpdateFirst s.db email (fun v => { v with avatar := url }),
         cache := cacheDropIfPresent s.cache email })

/-- The claim set a token-creating method encodes (src/services/auth.py):
subject, issued-at, expiry and scope. -/
structure TokenClaims where
  sub : String
  iat : Nat
  exp : Nat
  scope : String
deriving Repr, DecidableEq

/-- The claim set of create_email_token: it carries no scope claim. -/
structure EmailTokenClaims where
  sub : String
  iat : Nat
  exp : Nat
deriving Repr, DecidableEq

/-- Auth.create_access_token.  expires_delta_sec is Optional; the Python
truthiness test `if expires_delta_sec:` sends both None and 0 to the
15-minute default. -/
def create_access_token (now : Nat) (sub : String) (expires_delta_sec : Option Nat) :
    TokenClaims :=
  let expire : Nat :=
    match expires_delta_sec with
    | some d => if d ≠ 0 then now + d else now + 15 * 60
    | none => now + 15 * 60
  { sub := sub, iat := now, exp := expire, scope := "access_token" }

/-- Auth.create_refresh_token: as create_access_token with a 7-day
default and scope refresh_token. -/
def create_refresh_token (now : Nat) (sub : String) (expires_delta_sec : Option Nat) :
    TokenClaims :=
  let expire : Nat :=
    match expires_delta_sec with
    | some d => if d ≠ 0 then now + d else now + 7 * 24 * 60 * 60
    | none => now + 7 * 24 * 60 * 60
  { sub := sub, iat := now, exp := expire, scope := "refresh_token" }

/-- Auth.create_email_token: always 7 days, and the method takes no
expiry argument at all. -/
def create_email_token (now : Nat) (sub : String) : EmailTokenClaims :=
  { sub := sub, iat := now, exp := now + 7 * 24 * 60 * 60 }

/-- A decoded JWT payload as the Python dict it is: each claim key may be
absent, and a present sub value may be JSON null (Python None).
`scope = none` means the scope key is absent; `sub = none` means the sub
key is absent; `sub = some none` means sub is present and null. -/
structure Payload where
  scope : Option String
  sub : Option (Option String)
deriving Repr, DecidableEq

/-- Auth.decode_refresh_token.  The argument is the outcome of the external
jwt.decode: a JWTError or a payload.  Only JWTError is caught; the dict
subscripts payload['scope'] and payload['sub'] raise an uncaught KeyError
when the key is absent. -/
def decode_refresh_token (jwtDecode : Except Unit Payload) : Except PyExc (Option String) :=
  match jwtDecode with
  | .error _ => .error (.http 401 "Could not validate credentials")
  | .ok payload =>
      match payload.scope with
      | none => .error (.keyError "scope")
      | some sc =>
          if sc = "refresh_token" then
            match payload.sub with
            | none => .error (.keyError "sub")
            | some email => .ok email
          else .error (.http 401 "Invalid scope for token")

/-- The credentials_exception of Auth.get_current_user. -/
def credentials_exception : PyExc := .http 401 "Could not validate credentials"

/-- Auth.get_current_user: the bearer guard of every protected endpoint.
JWTError becomes 401; a present scope other than access_token becomes 401;
a present-but-null sub becomes 401; an absent scope or sub key raises an
uncaught KeyError; otherwise the subject is resolved through the user
cache, with 401 when no user is found. -/
def get_current_user (jwtDecode : Except Unit Payload) (s : State) :
    Except PyExc UserRec × State :=
  match jwtDecode with
  | .error _ => (.error credentials_exception, s)
  | .ok payload =>
      match payload.scope with
      | none => (.error (.keyError "scope"), s)
      | some sc =>
          if sc = "access_token" then
            match payload.sub with
            | none => (.error (.keyError "sub"), s)
            | some none => (.error credentials_exception, s)
            | some (some email) =>
                match get_user_by_email email s with
                | (none, s1) => (.error credentials_exception, s1)
                | (some user, s1) => (.ok user, s1)
          else (.error credentials_exception, s)

/-- Auth.get_email_from_token: generic decode with no scope check (used by
both the email-confirmation and the password-reset confirmation routes).
JWTError becomes 422; an absent sub key raises an uncaught KeyError. -/
def get_email_from_token (jwtDecode : Except Unit Payload) : Except PyExc (Option String) :=
  match jwtDecode with
  | .error _ => .error (.http 422 "Invalid token for email verification")
  | .ok payload =>
      match payload.sub with
      | none => .error (.keyError "sub")
      | some email => .ok email

/-- The TokenModel response of login and refresh (token_type is the
constant "bearer" and is not modelled). -/
structure TokenModel where
  access_token : String
  refresh_token : String
deriving Repr, DecidableEq

/-- routes/auth.py POST /signup handler.  `hash` is the external bcrypt
hashing of Auth.get_password_hash.  The existence check goes through the
cached lookup; on conflict the handler raises 409. -/
def signup (hash : String → String) (body : UserModel) (s : State) :
    Except PyExc (UserRec × String) × State :=
  match get_user_by_email body.email s with
  | (some _, s1) => (.error (.http 409 "Account already exists"), s1)
  | (none, s1) =>
      let r := create_user { body with password := hash body.password } s1
      (.ok (r.1, "User successfully created. Check your email for confirmation."), r.2)

/-- routes/auth.py POST /login handler.  `verify` is the external bcrypt
verification of Auth.verify_password; `encode` is the external jwt.encode;
`now` the current time.  The username field of the form carries the email.
Checks, in order: user found, email confirmed, password verifies; then
issues an access/refresh pair with subject user.email and persists the new
refresh token via update_token. -/
def login (verify : String → String → Bool) (encode : TokenClaims → String)
    (now : Nat) (username password : String) (s : State) :
    Except PyExc TokenModel × State :=
  match get_user_by_email username s with
  | (none, s1) => (.error (.http 401 "Invalid email"), s1)
  | (some user, s1) =>
      if user.confirmed = false then
        (.error (.http 401 "Email not confirmed"), s1)
      else if verify password user.password = false then
        (.error (.http 401 "Invalid password"), s1)
      else
        let access := encode (create_access_token now user.email none)
        let refresh := encode (create_refresh_token now user.email none)
        match update_token user (some refresh) s1 with
        | (.error e, s2) => (.error e, s2)
        | (.ok _, s2) => (.ok { access_token := access, refresh_token := refresh }, s2)

/-- routes/auth.py GET /refresh_token handler.  `token` is the presented
bearer string and `jwtDecode` the outcome of jwt.decode on it.  A null
subject makes get_user_by_email receive None, on which redis raises
DataError; a subject with no user row makes `user.refresh_token` an
attribute access on None, raising AttributeError.  On a stored/presented
mismatch the stored token is cleared and 401 raised; on a match a fresh
pair is issued and the new refresh token persisted. -/
def refresh_token (encode : TokenClaims → String) (now : Nat)
    (jwtDecode : Except Unit Payload) (token : String) (s : State) :
    Except PyExc TokenModel × State :=
  match decode_refresh_token jwtDecode with
  | .error e => (.error e, s)
  | .ok none => (.error .dataError, s)
  | .ok (some email) =>
      match get_user_by_email email s with
      | (none, s1) => (.error .attributeError, s1)
      | (some user, s1) =>
          if user.refresh_token ≠ some token then
            match update_token user none s1 with
            | (.error e, s2) => (.error e, s2)
            | (.ok _, s2) => (.error (.http 401 "Invalid refresh token"), s2)
          else
            let access := encode (create_access_token now email none)
            let refresh := encode (create_refresh_token now email none)
            match update_token user (some refresh) s1 with
            | (.error e, s2) => (.error e, s2)
            | (.ok _, s2) => (.ok { access_token := access, refresh_token := refresh }, s2)

/-- routes/auth.py GET /confirmed_email/:token handler.  Decodes via
get_email_from_token, looks the user up through the cache, raises 400 when
absent, returns idempotently when already confirmed, otherwise flips the
flag through the repository. -/
def confirmed_email_route (jwtDecode : Except Unit Payload) (s : State) :
    Except PyExc String × State :=
  match get_email_from_token jwtDecode with
  | .error e => (.error e, s)
  | .ok none => (.error .dataError, s)
  | .ok (some email) =>
      match get_user_by_email email s with
      | (none, s1) => (.error (.http 400 "Verification error"), s1)
      | (some user, s1) =>
          if user.confirmed then
            (.ok "Your email is already confirmed", s1)
          else
            match confirmed_email email s1 with
            | (.error e, s2) => (.error e, s2)
            | (.ok _, s2) => (.ok "Email confirmed", s2)

/-- routes/auth.py POST /request_email handler: resend of the confirmation
mail.  The email send is a fire-and-forget background task and is not
modelled; only the caller-visible message and the state are. -/
def request_email (email : String) (s : State) : Except PyExc String × State :=
  match get_user_by_email email s with
  | (some user, s1) =>
      if user.confirmed then (.ok "Your email is already confirmed", s1)
      else (.ok "Check your email for confirmation.", s1)
  | (none, s1) => (.ok "Check your email for confirmation.", s1)

/-- routes/auth.py POST /password_reset handler (declared in the source
with the name request_email, shadowing the /request_email handler; renamed
here).  Whether or not the account exists only gates a background email
send; the caller-visible response is the same constant message. -/
def password_reset (email : String) (s : State) : Except PyExc String × State :=
  match get_user_by_email email s with
  | (_, s1) => (.ok "Check your email for instruction.", s1)

/-- routes/auth.py GET /confirm_password_reset/:token handler. -/
def confirm_password_reset (jwtDecode : Except Unit Payload) (s : State) :
    Except PyExc (String × String) × State :=
  match get_email_from_token jwtDecode with
  | .error e => (.error e, s)
  | .ok none => (.error .dataError, s)
  | .ok (some email) =>
      match get_user_by_email email s with
      | (none, s1) => (.error (.http 400 "Confirm password reset error"), s1)
      | (some _, s1) => (.ok (email, "User confirmed password reset"), s1)

/-- routes/auth.py POST /new_password handler (declared in the source with
the name signup, shadowing the /signup handler; renamed here).  Looks the
user up through the cache, raises 400 when absent, otherwise hashes the new
password and persists it via update_password. -/
def new_password (hash : String → String) (email password : String) (s : State) :
    Except PyExc String × State :=
  match get_user_by_email email s with
  | (none, s1) => (.error (.http 400 "Invalid email"), s1)
  | (some user, s1) =>
      match update_password user (hash password) s1 with
      | (.error e, s2) => (.error e, s2)
      | (.ok _, s2) => (.ok "Password updated", s2)

/-- The external collaborators a handler needs: bcrypt hashing and
verification and jwt encoding. -/
structure Env where
  hash : String → String
  verify : String → String → Bool
  encode : TokenClaims → String

/-- One API call of the session core, carrying the outcomes of the
external collaborators (decoded payloads, current time) it consumes. -/
inductive Op where
  | opSignup (body : UserModel)
  | opLogin (now : Nat) (username password : String)
  | opRefresh (now : Nat) (jwtDecode : Except Unit Payload) (token : String)
  | opConfirmedEmail (jwtDecode : Except Unit Payload)
  | opRequestEmail (email : String)
  | opPasswordReset (email : String)
  | opConfirmPasswordReset (jwtDecode : Except Unit Payload)
  | opNewPassword (email password : String)
  | opUpdateAvatar (email url : String)

/-- The state reached after an API call, whether it returned or raised:
database commits performed before an exception persist. -/
def stepState (env : Env) (op : Op) (s : State) : State :=
  match op with
  | .opSignup body => (signup env.hash body s).2
  | .opLogin now u p => (login env.verify env.encode now u p s).2
  | .opRefresh now j t => (refresh_token env.encode now j t s).2
  | .opConfirmedEmail j => (confirmed_email_route j s).2
  | .opRequestEmail e => (request_email e s).2
  | .opPasswordReset e => (password_reset e s).2
  | .opConfirmPasswordReset j => (confirm_password_reset j s).2
  | .opNewPassword e p => (new_password env.hash e p s).2
  | .opUpdateAvatar e u => (update_avatar e u s).2

/-- Coherence of the cache at a key: either no entry, or the entry is the
pickled current database answer for that key.  This is the invariant the
sequential system maintains: entries are written only as exact snapshots of
the database answer and deleted on every mutation. -/
def cacheOk (s : State) (email : String) : Prop :=
  cacheGet s.cache email = none ∨
    cacheGet s.cache email = some (findUserByEmail s.db email)

/-- The jwt payload of a well-formed refresh token for subject E. -/
def refreshPayload (E : String) : Payload :=
  { scope := some "refresh_token", sub := some (some E) }

/-- A confirmed demo user, for concrete witnesses. -/
def userA : UserRec :=
  { id := 1, username := "alice", email := "a@x.com", password := "hashedpw",
    confirmed := true, avatar := "", refresh_token := some "r1" }

/-- An unconfirmed demo user. -/
def userB : UserRec :=
  { id := 2, username := "bobby", email := "b@x.com", password := "hashedpw2",
    confirmed := false, avatar := "", refresh_token := none }

/-- Demo state: one confirmed user, empty cache. -/
def stateA : State := { db := [userA], cache := [] }

/-- Demo state: one confirmed user, cached snapshot present. -/
def stateACached : State := { db := [userA], cache := [("a@x.com", some userA)] }

/-- A concrete stand-in for the external jwt.encode. -/
def encodeDemo (c : TokenClaims) : String :=
  c.sub ++ "|" ++ c.scope ++ "|" ++ toString c.iat ++ "|" ++ toString c.exp

/-- A concrete stand-in for the external bcrypt hash. -/
def hashDemo (p : String) : String := "h:" ++ p

/-- A concrete stand-in for the external bcrypt verification. -/
def verifyDemo (plain digest : String) : Bool := digest == "h:" ++ plain

/-- The demo collaborators bundled. -/
def envDemo : Env := { hash := hashDemo, verify := verifyDemo, encode := encodeDemo }

/-- Positionwise preservation of the confirmed flag between two database
snapshots: every row keeps exactly its confirmed value. -/
def dbConfirmPreserve (db db' : List UserRec) : Prop :=
  ∀ (i : Nat) (u : UserRec), db[i]? = some u →
    ∃ u', db'[i]? = some u' ∧ u'.confirmed = u.confirmed

/-- Positionwise monotonicity of the confirmed flag between two database
snapshots: a row confirmed before is still confirmed after. -/
def dbConfirmMono (db db' : List UserRec) : Prop :=
  ∀ (i : Nat) (u : UserRec), db[i]? = some u →
    ∃ u', db'[i]? = some u' ∧ (u.confirmed = true → u'.confirmed = true)

/-! ### Basic lemmas about the store and cache primitives -/

/-- A row found by email filter has that email. -/
theorem findUserByEmail_email {db : List UserRec} {E : String} {u : UserRec}
    (h : findUserByEmail db E = some u) : u.email = E := by
  unfold findUserByEmail at h
  have hb := List.find?_some h
  exact eq_of_beq hb

/-- Deleting a key removes it. -/
theorem cacheGet_cacheDel_self (c : Cache) (k : String) :
    cacheGet (cacheDel c k) k = none := by
  induction c with
  | nil => rfl
  | cons p c ih =>
      by_cases h : p.1 = k <;> simp [cacheDel, cacheGet, h, ih]

/-- Deleting a key leaves other keys unchanged. -/
theorem cacheGet_cacheDel_other (c : Cache) (k k' : String) (h : k' ≠ k) :
    cacheGet (cacheDel c k) k' = cacheGet c k' := by
  induction c with
  | nil => rfl
  | cons p c ih =>
      by_cases hp : p.1 = k <;> by_cases hp' : p.1 = k' <;>
        simp_all [cacheDel, cacheGet]

/-- The get-then-delete pattern leaves no entry under the key. -/
theorem cacheGet_cacheDropIfPresent_self (c : Cache) (k : String) :
    cacheGet (cacheDropIfPresent c k) k = none := by
  unfold cacheDropIfPresent
  by_cases h : (cacheGet c k).isSome
  · simpa [h] using cacheGet_cacheDel_self c k
  · simpa [h] using Option.not_isSome_iff_eq_none.mp h

/-- The get-then-delete pattern never touches other keys. -/
theorem cacheGet_cacheDropIfPresent_other (c : Cache) (k k' : String) (h : k' ≠ k) :
    cacheGet (cacheDropIfPresent c k) k' = cacheGet c k' := by
  unfold cacheDropIfPresent
  by_cases hs : (cacheGet c k).isSome
  · simpa [hs] using cacheGet_cacheDel_other c k k' h
  · rw [if_neg hs]

/-- Setting a key stores exactly that value under it. -/
theorem cacheGet_cacheSet_self (c : Cache) (k : String) (v : Option UserRec) :
    cacheGet (cacheSet c k v) k = some v := by
  simp [cacheGet, cacheSet]

/-- The cached lookup never changes the database. -/
theorem get_user_by_email_db (E : String) (s : State) :
    (get_user_by_email E s).2.db = s.db := by
  unfold get_user_by_email
  cases h : cacheGet s.cache E <;> simp [h]

/-- Behaviour of the cached lookup on a miss. -/
theorem get_user_by_email_miss {E : String} {s : State}
    (h : cacheGet s.cache E = none) :
    get_user_by_email E s =
      (findUserByEmail s.db E,
       { s with cache := cacheSet s.cache E (findUserByEmail s.db E) }) := by
  simp [get_user_by_email, h]

/-- Behaviour of the cached lookup on a hit. -/
theorem get_user_by_email_hit {E : String} {s : State} {v : Option UserRec}
    (h : cacheGet s.cache E = some v) :
    get_user_by_email E s = (v, s) := by
  simp [get_user_by_email, h]

/-- Under coherence the cached lookup answers as the database would. -/
theorem get_user_by_email_fst_of_cacheOk {E : String} {s : State}
    (h : cacheOk s E) : (get_user_by_email E s).1 = findUserByEmail s.db E := by
  rcases h with h | h
  · rw [get_user_by_email_miss h]
  · rw [get_user_by_email_hit h]

/-- Updating the first row matching an email, then searching for that email,
finds the updated row, provided the update does not change the email. -/
theorem findUserByEmail_dbUpdateFirst_self {db : List UserRec} {E : String}
    {u : UserRec} (f : UserRec → UserRec)
    (h : findUserByEmail db E = some u) (hf : ∀ v, (f v).email = v.email) :
    findUserByEmail (dbUpdateFirst db E f) E = some (f u) := by
  induction db with
  | nil => simp [findUserByEmail] at h
  | cons w rest ih =>
      by_cases hw : (w.email == E) = true
      · have hu : u = w := by
          simp [findUserByEmail, List.find?_cons, hw] at h
          exact h.symm
        subst hu
        rw [dbUpdateFirst, if_pos hw]
        have hfw : ((f u).email == E) = true := by
          rw [hf u]; exact hw
        simp [findUserByEmail, List.find?_cons, hfw]
      · have h' : findUserByEmail rest E = some u := by
          simpa [findUserByEmail, List.find?_cons, hw] using h
        rw [dbUpdateFirst, if_neg hw]
        simpa [findUserByEmail, List.find?_cons, hw] using ih h'

/-- Positionwise effect of dbUpdateFirst: each position is unchanged or
holds the image under the update of what it held. -/
theorem dbUpdateFirst_getElem? (db : List UserRec) (email : String)
    (f : UserRec → UserRec) (i : Nat) :
    (dbUpdateFirst db email f)[i]? = db[i]? ∨
      ∃ u, db[i]? = some u ∧ (dbUpdateFirst db email f)[i]? = some (f u) := by
  induction db generalizing i with
  | nil => left; rfl
  | cons w rest ih =>
      by_cases hw : (w.email == email) = true
      · rw [dbUpdateFirst, if_pos hw]
        cases i with
        | zero => right; exact ⟨w, by simp, by simp⟩
        | succ n => left; simp
      · rw [dbUpdateFirst, if_neg hw]
        cases i with
        | zero => left; simp
        | succ n =>
            rw [List.getElem?_cons_succ, List.getElem?_cons_succ]
            exact ih n

/-- Appending rows never changes what an existing position holds. -/
theorem getElem?_append_of_some {db l : List UserRec} {i : Nat} {u : UserRec}
    (h : db[i]? = some u) : (db ++ l)[i]? = some u := by
  have hi : i < db.length := by
    by_contra hn
    rw [List.getElem?_eq_none (Nat.le_of_not_lt hn)] at h
    exact Option.noConfusion h
  rw [List.getElem?_append_left hi]
  exact h

/-! ### Unfolding lemmas for the repository mutations -/

/-- update_token when the row exists. -/
theorem update_token_some {s : State} {cu u : UserRec} {tok : Option String}
    (h : findUserByEmail s.db cu.email = some u) :
    update_token cu tok s =
      (.ok (),
       { db := dbUpdateFirst s.db cu.email (fun v => { v with refresh_token := tok }),
         cache := cacheDropIfPresent s.cache u.email }) := by
  simp [update_token, h]

/-- confirmed_email when the row exists. -/
theorem confirmed_email_some {s : State} {E : String} {u : UserRec}
    (h : findUserByEmail s.db E = some u) :
    confirmed_email E s =
      (.ok (),
       { db := dbUpdateFirst s.db E (fun v => { v with confirmed := true }),
         cache := cacheDropIfPresent s.cache E }) := by
  simp [confirmed_email, h]

/-- update_password when the row exists. -/
theorem update_password_some {s : State} {cu u : UserRec} {pw : String}
    (h : findUserByEmail s.db cu.email = some u) :
    update_password cu pw s =
      (.ok (),
       { db := dbUpdateFirst s.db cu.email (fun v => { v with password := pw }),
         cache := cacheDropIfPresent s.cache u.email }) := by
  simp [update_password, h]

/-- update_avatar when the row exists. -/
theorem update_avatar_some {s : State} {E url : String} {u : UserRec}
    (h : findUserByEmail s.db E = some u) :
    update_avatar E url s =
      (.ok { u with avatar := url },
       { db := dbUpdateFirst s.db E (fun v => { v with avatar := url }),
         cache := cacheDropIfPresent s.cache E }) := by
  simp [update_avatar, h]

/-- After update_token the cache has no entry for the user's email. -/
theorem update_token_cache_clear (tok : Option String) {s : State} {cu u : UserRec}
    (h : findUserByEmail s.db cu.email = some u) :
    cacheGet (update_token cu tok s).2.cache cu.email = none := by
  rw [update_token_some h]
  have he : u.email = cu.email := findUserByEmail_email h
  rw [← he]
  exact cacheGet_cacheDropIfPresent_self s.cache u.email

/-- After update_password the cache has no entry for the user's email. -/
theorem update_password_cache_clear (pw : String) {s : State} {cu u : UserRec}
    (h : findUserByEmail s.db cu.email = some u) :
    cacheGet (update_password cu pw s).2.cache cu.email = none := by
  rw [update_password_some h]
  have he : u.email = cu.email := findUserByEmail_email h
  rw [← he]
  exact cacheGet_cacheDropIfPresent_self s.cache u.email

/-- A lookup against a state with no cache entry answers from the store. -/
theorem lookup_reflects_db {s : State} {E : String}
    (h : cacheGet s.cache E = none) :
    (get_user_by_email E s).1 = findUserByEmail s.db E :=
  get_user_by_email_fst_of_cacheOk (Or.inl h)

/-! ### Claim C2: cache invalidation on every mutation -/

/-- C2: for every mutating operation on the user record for email E
(refresh-token update, email confirmation, password update, avatar update),
the cache entry keyed by E is deleted before the operation returns, so the
next lookup for E misses the cache and reflects the store's new state. -/
theorem cache_invalidated_on_every_mutation
    (s : State) (cu : UserRec) (tok : Option String) (pw E url : String)
    (u w : UserRec)
    (hcu : findUserByEmail s.db cu.email = some u)
    (hE : findUserByEmail s.db E = some w) :
    (cacheGet (update_token cu tok s).2.cache cu.email = none ∧
       (get_user_by_email cu.email (update_token cu tok s).2).1 =
         findUserByEmail (update_token cu tok s).2.db cu.email) ∧
    (cacheGet (confirmed_email E s).2.cache E = none ∧
       (get_user_by_email E (confirmed_email E s).2).1 =
         findUserByEmail (confirmed_email E s).2.db E) ∧
    (cacheGet (update_password cu pw s).2.cache cu.email = none ∧
       (get_user_by_email cu.email (update_password cu pw s).2).1 =
         findUserByEmail (update_password cu pw s).2.db cu.email) ∧
    (cacheGet (update_avatar E url s).2.cache E = none ∧
       (get_user_by_email E (update_avatar E url s).2).1 =
         findUserByEmail (update_avatar E url s).2.db E) := by
  have h1 := update_token_cache_clear tok hcu
  have h2 : cacheGet (confirmed_email E s).2.cache E = none := by
    rw [confirmed_email_some hE]
    exact cacheGet_cacheDropIfPresent_self s.cache E
  have h3 := update_password_cache_clear pw hcu
  have h4 : cacheGet (update_avatar E url s).2.cache E = none := by
    rw [update_avatar_some hE]
    exact cacheGet_cacheDropIfPresent_self s.cache E
  exact ⟨⟨h1, lookup_reflects_db h1⟩, ⟨h2, lookup_reflects_db h2⟩,
         ⟨h3, lookup_reflects_db h3⟩, ⟨h4, lookup_reflects_db h4⟩⟩

/-- Witness for C2 at a concrete populated state with a live cache entry. -/
theorem cache_invalidated_on_every_mutation_witness :
    cacheGet (update_token userA (some "r2") stateACached).2.cache userA.email = none ∧
    cacheGet (confirmed_email "a@x.com" stateACached).2.cache "a@x.com" = none :=
  ⟨(cache_invalidated_on_every_mutation stateACached userA (some "r2") "pw" "a@x.com"
      "url" userA userA (by decide) (by decide)).1.1,
   (cache_invalidated_on_every_mutation stateACached userA (some "r2") "pw" "a@x.com"
      "url" userA userA (by decide) (by decide)).2.1.1⟩

/-! ### Claim C10: negative results are cached -/

/-- C10: on a cache miss the read-through lookup stores the store's result
in the cache even when no user record exists (a pickled user-absent
snapshot is cached under that email); a subsequent lookup for that email is
answered from the cache without consulting the store; and user creation
deletes any pre-existing entry for the new user's email before returning. -/
theorem negative_results_are_cached
    (E : String) (s : State) (c : Cache) (db db2 : List UserRec)
    (v : Option UserRec) (body : UserModel) :
    (cacheGet s.cache E = none →
       cacheGet (get_user_by_email E s).2.cache E = some (findUserByEmail s.db E) ∧
       (get_user_by_email E s).1 = findUserByEmail s.db E) ∧
    (cacheGet s.cache E = none → findUserByEmail s.db E = none →
       cacheGet (get_user_by_email E s).2.cache E = some none) ∧
    (cacheGet c E = some v →
       get_user_by_email E { db := db, cache := c } = (v, { db := db, cache := c }) ∧
       get_user_by_email E { db := db2, cache := c } = (v, { db := db2, cache := c })) ∧
    cacheGet (create_user body s).2.cache body.email = none := by
  refine ⟨?_, ?_, ?_, ?_⟩
  · intro h
    rw [get_user_by_email_miss h]
    exact ⟨cacheGet_cacheSet_self s.cache E (findUserByEmail s.db E), rfl⟩
  · intro h habs
    rw [get_user_by_email_miss h, habs]
    exact cacheGet_cacheSet_self s.cache E none
  · intro h
    exact ⟨get_user_by_email_hit h, get_user_by_email_hit h⟩
  · simpa [create_user] using
      cacheGet_cacheDropIfPresent_self s.cache body.email

/-- Witness for C10: looking up an absent user caches a pickled None, and
the cached None is then served regardless of the store's contents. -/
theorem negative_results_are_cached_witness :
    cacheGet (get_user_by_email "b@x.com" stateA).2.cache "b@x.com" = some none ∧
    get_user_by_email "b@x.com" { db := [userB], cache := [("b@x.com", none)] } =
      (none, { db := [userB], cache := [("b@x.com", none)] }) :=
  ⟨(negative_results_are_cached "b@x.com" stateA [] [] [] none
      { username := "bobby", email := "b@x.com", password := "pw" }).2.1
      (by decide) (by decide),
   ((negative_results_are_cached "b@x.com" stateA [("b@x.com", none)] [userB] []
      none { username := "bobby", email := "b@x.com", password := "pw" }).2.2.1
      (by decide)).1⟩

/-! ### Claim C8: password-reset request does not leak account existence -/

/-- C8: for every email string, the password-reset request returns the same
success result to the caller whether or not an account with that email
exists: any two runs, in particular one on a state containing the account
and one on a state without it, produce the same caller-visible response. -/
theorem password_reset_no_account_leak (email : String) (s1 s2 : State) :
    (password_reset email s1).1 = (password_reset email s2).1 ∧
    (password_reset email s1).1 = .ok "Check your email for instruction." :=
  ⟨rfl, rfl⟩

/-! ### Claim C9: refresh requires an existing subject -/

/-- C9: for a refresh-scoped token whose subject E has no account (no row in
the store and no stale cached user snapshot), the refresh handler does not
return Unauthorized: the unguarded `user.refresh_token` attribute access
dereferences None and raises AttributeError. -/
theorem refresh_missing_subject_null_deref
    (encode : TokenClaims → String) (now : Nat) (E token : String) (s : State)
    (hdb : findUserByEmail s.db E = none)
    (hc : cacheGet s.cache E = none ∨ cacheGet s.cache E = some none) :
    (refresh_token encode now (.ok (refreshPayload E)) token s).1 =
      .error .attributeError ∧
    PyExc.attributeError.isUnauthorized = false := by
  refine ⟨?_, rfl⟩
  rcases hc with h | h
  · have hl := get_user_by_email_miss h
    simp [refresh_token, decode_refresh_token, refreshPayload, hl, hdb]
  · have hl := get_user_by_email_hit h
    simp [refresh_token, decode_refresh_token, refreshPayload, hl]

/-- Witness for C9: a well-formed refresh token for an email with no
account reaches the AttributeError. -/
theorem refresh_missing_subject_null_deref_witness :
    (refresh_token encodeDemo 0 (.ok (refreshPayload "ghost@x.com")) "tok" stateA).1 =
      .error .attributeError :=
  (refresh_missing_subject_null_deref encodeDemo 0 "ghost@x.com" "tok" stateA
    (by decide) (Or.inl (by decide))).1

/-! ### Claim C6: token default lifetimes and overridability -/

/-- C6 (amended): with no per-call lifetime an access token expires 15
minutes after issuance and refresh and email-verify tokens 7 days after
issuance; the access and refresh lifetimes are overridable per call by a
nonzero expires_delta_sec, while create_email_token takes no lifetime
argument at all, so the email-verify lifetime cannot be overridden. -/
theorem token_default_lifetimes (now : Nat) (sub : String) (d : Nat) :
    (create_access_token now sub none).exp = now + 15 * 60 ∧
    (create_refresh_token now sub none).exp = now + 7 * 24 * 60 * 60 ∧
    (create_email_token now sub).exp = now + 7 * 24 * 60 * 60 ∧
    (d ≠ 0 → (create_access_token now sub (some d)).exp = now + d) ∧
    (d ≠ 0 → (create_refresh_token now sub (some d)).exp = now + d) := by
  refine ⟨rfl, rfl, rfl, ?_, ?_⟩
  · intro hd
    simp [create_access_token, hd]
  · intro hd
    simp [create_refresh_token, hd]

/-- Witness for C6: a 60-second override takes effect on access and refresh
tokens. -/
theorem token_default_lifetimes_witness :
    (create_access_token 0 "a@x.com" (some 60)).exp = 0 + 60 ∧
    (create_refresh_token 0 "a@x.com" (some 60)).exp = 0 + 60 :=
  ⟨(token_default_lifetimes 0 "a@x.com" 60).2.2.2.1 (by decide),
   (token_default_lifetimes 0 "a@x.com" 60).2.2.2.2 (by decide)⟩

/-- C6 counterexample: the claim that the email-verify default lifetime can
be overridden per call is false: no call to create_email_token can produce
any expiry other than issuance plus 7 days. -/
theorem email_token_lifetime_not_overridable :
    ¬ ∃ (t : Nat) (sub : String),
        (create_email_token t sub).exp ≠ t + 7 * 24 * 60 * 60 := by
  rintro ⟨t, sub, h⟩
  exact h rfl

/-! ### Claim C3: bearer authentication guard -/

/-- C3 (amended): the bearer guard fails with Unauthorized on any decode
error, on a present scope different from access, on a present-but-null
subject claim, and when the resolved subject has no user record; with scope
access and a string subject it returns the record the user cache resolves.
However a payload whose scope or sub key is absent raises an uncaught
KeyError rather than Unauthorized. -/
theorem authenticate_bearer_guard (s : State) :
    ((get_current_user (.error ()) s).1 = .error credentials_exception) ∧
    (∀ subv, (get_current_user (.ok { scope := none, sub := subv }) s).1 =
        .error (.keyError "scope")) ∧
    (∀ sc subv, sc ≠ "access_token" →
        (get_current_user (.ok { scope := some sc, sub := subv }) s).1 =
          .error credentials_exception) ∧
    ((get_current_user (.ok { scope := some "access_token", sub := none }) s).1 =
        .error (.keyError "sub")) ∧
    ((get_current_user (.ok { scope := some "access_token", sub := some none }) s).1 =
        .error credentials_exception) ∧
    (∀ E, (get_user_by_email E s).1 = none →
        (get_current_user
            (.ok { scope := some "access_token", sub := some (some E) }) s).1 =
          .error credentials_exception) ∧
    (∀ E u, (get_user_by_email E s).1 = some u →
        (get_current_user
            (.ok { scope := some "access_token", sub := some (some E) }) s).1 =
          .ok u) := by
  refine ⟨rfl, fun subv => rfl, ?_, rfl, rfl, ?_, ?_⟩
  · intro sc subv hsc
    simp [get_current_user, hsc]
  · intro E h
    rcases hpq : get_user_by_email E s with ⟨uo, s1⟩
    rw [hpq] at h
    simp only at h
    subst h
    simp [get_current_user, hpq]
  · intro E u h
    rcases hpq : get_user_by_email E s with ⟨uo, s1⟩
    rw [hpq] at h
    simp only at h
    subst h
    simp [get_current_user, hpq]

/-- Witness for C3: a refresh-scoped token is rejected as Unauthorized, and
a valid access token for a cached user resolves to that user. -/
theorem authenticate_bearer_guard_witness :
    (get_current_user
        (.ok { scope := some "refresh_token", sub := some (some "a@x.com") })
        stateA).1 = .error credentials_exception ∧
    (get_current_user
        (.ok { scope := some "access_token", sub := some (some "a@x.com") })
        stateACached).1 = .ok userA :=
  ⟨(authenticate_bearer_guard stateA).2.2.1 "refresh_token"
      (some (some "a@x.com")) (by decide),
   (authenticate_bearer_guard stateACached).2.2.2.2.2.2 "a@x.com" userA (by decide)⟩

/-- C3 counterexample: a successfully decoded access-scoped payload with no
subject claim does not fail with Unauthorized: the handler raises an
uncaught KeyError instead. -/
theorem authenticate_missing_subject_not_unauthorized :
    (get_current_user (.ok { scope := some "access_token", sub := none })
        { db := [], cache := [] }).1 = .error (.keyError "sub") ∧
    (PyExc.keyError "sub").isUnauthorized = false :=
  ⟨rfl, rfl⟩

/-- Under coherence the lookup returns the database answer together with a
state whose database is unchanged. -/
theorem lookup_under_cacheOk {E : String} {s : State} (h : cacheOk s E) :
    ∃ s1, get_user_by_email E s = (findUserByEmail s.db E, s1) ∧ s1.db = s.db := by
  rcases h with h | h
  · exact ⟨_, get_user_by_email_miss h, rfl⟩
  · exact ⟨s, get_user_by_email_hit h, rfl⟩

/-! ### Claim C4: login failure causes, order, and success effects -/

/-- C4: login fails with 401 and message "Invalid email" when the user is
not found, "Email not confirmed" when the found user is unconfirmed (before
any password check), and "Invalid password" when verification fails, in
that order and with three distinct messages; on success it returns an
access/refresh pair for the user's email, persists the new refresh token on
the record, and invalidates the cache entry. -/
theorem login_failure_order_and_success
    (verify : String → String → Bool) (encode : TokenClaims → String)
    (now : Nat) (E pw : String) (s : State) (hcoh : cacheOk s E) :
    (findUserByEmail s.db E = none →
       (login verify encode now E pw s).1 = .error (.http 401 "Invalid email")) ∧
    (∀ u, findUserByEmail s.db E = some u → u.confirmed = false →
       (login verify encode now E pw s).1 = .error (.http 401 "Email not confirmed")) ∧
    (∀ u, findUserByEmail s.db E = some u → u.confirmed = true →
       verify pw u.password = false →
       (login verify encode now E pw s).1 = .error (.http 401 "Invalid password")) ∧
    (∀ u, findUserByEmail s.db E = some u → u.confirmed = true →
       verify pw u.password = true →
       (login verify encode now E pw s).1 =
         .ok { access_token := encode (create_access_token now E none),
               refresh_token := encode (create_refresh_token now E none) } ∧
       (findUserByEmail (login verify encode now E pw s).2.db E).map
           UserRec.refresh_token =
         some (some (encode (create_refresh_token now E none))) ∧
       cacheGet (login verify encode now E pw s).2.cache E = none) ∧
    (PyExc.http 401 "Invalid email" ≠ PyExc.http 401 "Email not confirmed" ∧
     PyExc.http 401 "Invalid email" ≠ PyExc.http 401 "Invalid password" ∧
     PyExc.http 401 "Email not confirmed" ≠ PyExc.http 401 "Invalid password") := by
  obtain ⟨s1, hl, hdb1⟩ := lookup_under_cacheOk hcoh
  refine ⟨?_, ?_, ?_, ?_, by decide⟩
  · intro h
    rw [h] at hl
    simp [login, hl]
  · intro u hu hc
    rw [hu] at hl
    simp [login, hl, hc]
  · intro u hu hc hv
    rw [hu] at hl
    simp [login, hl, hc, hv]
  · intro u hu hc hv
    have hue : u.email = E := findUserByEmail_email hu
    subst hue
    rw [hu] at hl
    have hfind1 : findUserByEmail s1.db u.email = some u := by
      rw [hdb1]; exact hu
    have hupd := @update_token_some s1 u u
      (some (encode (create_refresh_token now u.email none))) hfind1
    refine ⟨?_, ?_, ?_⟩
    · simp [login, hl, hc, hv, hupd]
    · have hdb2 : (login verify encode now u.email pw s).2.db =
          dbUpdateFirst s1.db u.email
            (fun v => { v with
              refresh_token := some (encode (create_refresh_token now u.email none)) }) := by
        simp [login, hl, hc, hv, hupd]
      rw [hdb2, hdb1,
        findUserByEmail_dbUpdateFirst_self
          (fun v => { v with
            refresh_token := some (encode (create_refresh_token now u.email none)) })
          hu (fun v => rfl)]
      rfl
    · have hcache2 : (login verify encode now u.email pw s).2.cache =
          cacheDropIfPresent s1.cache u.email := by
        simp [login, hl, hc, hv, hupd]
      rw [hcache2]
      exact cacheGet_cacheDropIfPresent_self s1.cache u.email

/-- Witness for C4: with a confirmed user and the demo collaborators, a
wrong password is rejected with its own message, and the right password
logs in. -/
theorem login_failure_order_and_success_witness :
    (login verifyDemo encodeDemo 0 "a@x.com" "wrong" { db := [userA], cache := [] }).1 =
      .error (.http 401 "Invalid password") ∧
    (login verifyDemo encodeDemo 0 "b@x.com" "pw" { db := [userB], cache := [] }).1 =
      .error (.http 401 "Email not confirmed") :=
  ⟨(login_failure_order_and_success verifyDemo encodeDemo 0 "a@x.com" "wrong"
      { db := [userA], cache := [] } (Or.inl (by decide))).2.2.1 userA
      (by decide) (by decide) (by decide),
   (login_failure_order_and_success verifyDemo encodeDemo 0 "b@x.com" "pw"
      { db := [userB], cache := [] } (Or.inl (by decide))).2.1 userB
      (by decide) (by decide)⟩

/-- One refresh call, under coherence, with the subject's row present:
either the presented token mismatches the stored one, in which case the
stored token is cleared, the cache entry dropped and 401 raised, or it
matches, in which case a fresh pair is returned, the new refresh token
stored and the cache entry dropped. -/
theorem refresh_token_spec
    (encode : TokenClaims → String) (now : Nat) (E token : String)
    (s : State) (u : UserRec)
    (hdb : findUserByEmail s.db E = some u) (hcoh : cacheOk s E) :
    (u.refresh_token ≠ some token →
       (refresh_token encode now (.ok (refreshPayload E)) token s).1 =
         .error (.http 401 "Invalid refresh token") ∧
       findUserByEmail (refresh_token encode now (.ok (refreshPayload E)) token s).2.db E =
         some { u with refresh_token := none } ∧
       cacheGet (refresh_token encode now (.ok (refreshPayload E)) token s).2.cache E =
         none) ∧
    (u.refresh_token = some token →
       (refresh_token encode now (.ok (refreshPayload E)) token s).1 =
         .ok { access_token := encode (create_access_token now E none),
               refresh_token := encode (create_refresh_token now E none) } ∧
       findUserByEmail (refresh_token encode now (.ok (refreshPayload E)) token s).2.db E =
         some { u with refresh_token := some (encode (create_refresh_token now E none)) } ∧
       cacheGet (refresh_token encode now (.ok (refreshPayload E)) token s).2.cache E =
         none) := by
  obtain ⟨s1, hl, hdb1⟩ := lookup_under_cacheOk hcoh
  rw [hdb] at hl
  have hue : u.email = E := findUserByEmail_email hdb
  have hfind1 : findUserByEmail s1.db u.email = some u := by
    rw [hdb1, hue]; exact hdb
  constructor
  · intro hne
    have hupd := @update_token_some s1 u u none hfind1
    have hred : refresh_token encode now (.ok (refreshPayload E)) token s =
        (.error (.http 401 "Invalid refresh token"),
         { db := dbUpdateFirst s1.db u.email (fun v => { v with refresh_token := none }),
           cache := cacheDropIfPresent s1.cache u.email }) := by
      simp [refresh_token, decode_refresh_token, refreshPayload, hl, hne, hupd]
    refine ⟨by rw [hred], ?_, ?_⟩
    · rw [hred]
      simp only
      rw [hdb1, hue, findUserByEmail_dbUpdateFirst_self
        (fun v => { v with refresh_token := none }) hdb (fun v => rfl)]
      rw [hue]
    · rw [hred]
      simp only
      rw [hue]
      exact cacheGet_cacheDropIfPresent_self s1.cache E
  · intro heq
    have hupd := @update_token_some s1 u u
      (some (encode (create_refresh_token now E none))) hfind1
    have hred : refresh_token encode now (.ok (refreshPayload E)) token s =
        (.ok { access_token := encode (create_access_token now E none),
               refresh_token := encode (create_refresh_token now E none) },
         { db := dbUpdateFirst s1.db u.email
             (fun v => { v with
               refresh_token := some (encode (create_refresh_token now E none)) }),
           cache := cacheDropIfPresent s1.cache u.email }) := by
      simp [refresh_token, decode_refresh_token, refreshPayload, hl, heq, hupd]
    refine ⟨by rw [hred], ?_, ?_⟩
    · rw [hred]
      simp only
      rw [hdb1, hue, findUserByEmail_dbUpdateFirst_self
        (fun v => { v with
          refresh_token := some (encode (create_refresh_token now E none)) })
        hdb (fun v => rfl)]
      rw [hue]
    · rw [hred]
      simp only
      rw [hue]
      exact cacheGet_cacheDropIfPresent_self s1.cache E

/-! ### Claim C1: refresh-token rotation and reuse detection -/

/-- C1: for a refresh call whose bearer decodes with scope refresh_token to
subject E (with E's row present and the cache coherent at E): if the stored
refresh token differs from the presented one, the stored token is cleared
and the call fails 401; otherwise a fresh access+refresh pair is issued,
the new refresh token persisted and the cache entry for E dropped.  In
particular a rotated (already used) refresh token fails 401 on second use
and clears the stored token. -/
theorem refresh_rotation_and_reuse
    (encode : TokenClaims → String) (now now2 : Nat) (E token : String)
    (s : State) (u : UserRec)
    (hdb : findUserByEmail s.db E = some u) (hcoh : cacheOk s E) :
    (u.refresh_token ≠ some token →
       (refresh_token encode now (.ok (refreshPayload E)) token s).1 =
         .error (.http 401 "Invalid refresh token") ∧
       (findUserByEmail
           (refresh_token encode now (.ok (refreshPayload E)) token s).2.db E).map
           UserRec.refresh_token = some none ∧
       cacheGet (refresh_token encode now (.ok (refreshPayload E)) token s).2.cache E =
         none) ∧
    (u.refresh_token = some token →
       (refresh_token encode now (.ok (refreshPayload E)) token s).1 =
         .ok { access_token := encode (create_access_token now E none),
               refresh_token := encode (create_refresh_token now E none) } ∧
       (findUserByEmail
           (refresh_token encode now (.ok (refreshPayload E)) token s).2.db E).map
           UserRec.refresh_token =
         some (some (encode (create_refresh_token now E none))) ∧
       cacheGet (refresh_token encode now (.ok (refreshPayload E)) token s).2.cache E =
         none) ∧
    (u.refresh_token = some token →
     encode (create_refresh_token now E none) ≠ token →
       (refresh_token encode now2 (.ok (refreshPayload E)) token
           (refresh_token encode now (.ok (refreshPayload E)) token s).2).1 =
         .error (.http 401 "Invalid refresh token") ∧
       (findUserByEmail (refresh_token encode now2 (.ok (refreshPayload E)) token
           (refresh_token encode now (.ok (refreshPayload E)) token s).2).2.db E).map
           UserRec.refresh_token = some none) := by
  have h := refresh_token_spec encode now E token s u hdb hcoh
  refine ⟨?_, ?_, ?_⟩
  · intro hne
    obtain ⟨h1, h2, h3⟩ := h.1 hne
    exact ⟨h1, by rw [h2]; rfl, h3⟩
  · intro heq
    obtain ⟨h1, h2, h3⟩ := h.2 heq
    exact ⟨h1, by rw [h2]; rfl, h3⟩
  · intro heq hneq
    obtain ⟨h1, h2, h3⟩ := h.2 heq
    have h' := refresh_token_spec encode now2 E token _ _ h2 (Or.inl h3)
    have hne' : ({ u with
        refresh_token := some (encode (create_refresh_token now E none)) } :
          UserRec).refresh_token ≠ some token := by
      intro hc
      exact hneq (Option.some.inj hc)
    obtain ⟨g1, g2, g3⟩ := h'.1 hne'
    exact ⟨g1, by rw [g2]; rfl⟩

/-- Witness for C1: after a successful refresh with the stored token r1,
presenting r1 again fails 401. -/
theorem refresh_rotation_and_reuse_witness :
    (refresh_token encodeDemo 1 (.ok (refreshPayload "a@x.com")) "r1"
        (refresh_token encodeDemo 0 (.ok (refreshPayload "a@x.com")) "r1" stateA).2).1 =
      .error (.http 401 "Invalid refresh token") :=
  ((refresh_rotation_and_reuse encodeDemo 0 1 "a@x.com" "r1" stateA userA
      (by decide) (Or.inl (by decide))).2.2 (by decide) (by decide)).1

/-! ### Confirmed-flag lemmas for every operation -/

/-- Preservation is reflexive. -/
theorem dbConfirmPreserve_refl (db : List UserRec) : dbConfirmPreserve db db :=
  fun _ u h => ⟨u, h, rfl⟩

/-- Appending rows preserves every existing row. -/
theorem dbConfirmPreserve_append (db l : List UserRec) :
    dbConfirmPreserve db (db ++ l) :=
  fun _ u h => ⟨u, getElem?_append_of_some h, rfl⟩

/-- A first-match update whose function keeps the confirmed flag preserves
it at every position. -/
theorem dbConfirmPreserve_update (db : List UserRec) (E : String)
    (f : UserRec → UserRec) (hf : ∀ v, (f v).confirmed = v.confirmed) :
    dbConfirmPreserve db (dbUpdateFirst db E f) := by
  intro i u h
  rcases dbUpdateFirst_getElem? db E f i with hc | ⟨w, hw, hw'⟩
  · exact ⟨u, by rw [hc]; exact h, rfl⟩
  · have hwu : w = u := Option.some.inj (hw.symm.trans h)
    subst hwu
    exact ⟨f w, hw', hf w⟩

/-- Preservation implies monotonicity. -/
theorem dbConfirmMono_of_preserve {db db' : List UserRec}
    (h : dbConfirmPreserve db db') : dbConfirmMono db db' := by
  intro i u hu
  obtain ⟨u', h1, h2⟩ := h i u hu
  exact ⟨u', h1, fun hc => h2.trans hc⟩

/-- A first-match update whose function only raises the confirmed flag is
monotone at every position. -/
theorem dbConfirmMono_update (db : List UserRec) (E : String)
    (f : UserRec → UserRec) (hf : ∀ v, v.confirmed = true → (f v).confirmed = true) :
    dbConfirmMono db (dbUpdateFirst db E f) := by
  intro i u h
  rcases dbUpdateFirst_getElem? db E f i with hc | ⟨w, hw, hw'⟩
  · exact ⟨u, by rw [hc]; exact h, fun hc' => hc'⟩
  · have hwu : w = u := Option.some.inj (hw.symm.trans h)
    subst hwu
    exact ⟨f w, hw', hf w⟩

/-- The database update_token performs, as a case split. -/
theorem update_token_db (cu : UserRec) (tok : Option String) (s : State) :
    (update_token cu tok s).2.db = s.db ∨
    (update_token cu tok s).2.db =
      dbUpdateFirst s.db cu.email (fun v => { v with refresh_token := tok }) := by
  unfold update_token
  cases h : findUserByEmail s.db cu.email <;> simp [h]

/-- The database update_password performs, as a case split. -/
theorem update_password_db (cu : UserRec) (pw : String) (s : State) :
    (update_password cu pw s).2.db = s.db ∨
    (update_password cu pw s).2.db =
      dbUpdateFirst s.db cu.email (fun v => { v with password := pw }) := by
  unfold update_password
  cases h : findUserByEmail s.db cu.email <;> simp [h]

/-- The database update_avatar performs, as a case split. -/
theorem update_avatar_db (E url : String) (s : State) :
    (update_avatar E url s).2.db = s.db ∨
    (update_avatar E url s).2.db =
      dbUpdateFirst s.db E (fun v => { v with avatar := url }) := by
  unfold update_avatar
  cases h : findUserByEmail s.db E <;> simp [h]

/-- The database confirmed_email performs, as a case split. -/
theorem confirmed_email_db (E : String) (s : State) :
    (confirmed_email E s).2.db = s.db ∨
    (confirmed_email E s).2.db =
      dbUpdateFirst s.db E (fun v => { v with confirmed := true }) := by
  unfold confirmed_email
  cases h : findUserByEmail s.db E <;> simp [h]

/-- Signup preserves the confirmed flag of every existing row. -/
theorem signup_confirmPreserve (hash : String → String) (body : UserModel)
    (s : State) : dbConfirmPreserve s.db (signup hash body s).2.db := by
  have hdb := get_user_by_email_db body.email s
  rcases hpq : get_user_by_email body.email s with ⟨uo, s1⟩
  rw [hpq] at hdb
  cases uo with
  | none =>
      simp only [signup, hpq, create_user]
      rw [hdb]
      exact dbConfirmPreserve_append s.db _
  | some u =>
      simp only [signup, hpq]
      rw [hdb]
      exact dbConfirmPreserve_refl s.db

/-- Login preserves the confirmed flag of every row. -/
theorem login_confirmPreserve (verify : String → String → Bool)
    (encode : TokenClaims → String) (now : Nat) (un pw : String) (s : State) :
    dbConfirmPreserve s.db (login verify encode now un pw s).2.db := by
  have hdb := get_user_by_email_db un s
  rcases hpq : get_user_by_email un s with ⟨uo, s1⟩
  rw [hpq] at hdb
  cases uo with
  | none =>
      simp only [login, hpq]
      rw [hdb]
      exact dbConfirmPreserve_refl s.db
  | some u =>
      simp only [login, hpq]
      by_cases hc : u.confirmed = false
      · rw [if_pos hc]
        rw [hdb]
        exact dbConfirmPreserve_refl s.db
      · rw [if_neg hc]
        by_cases hv : verify pw u.password = false
        · rw [if_pos hv]
          rw [hdb]
          exact dbConfirmPreserve_refl s.db
        · rw [if_neg hv]
          have hd := update_token_db u
            (some (encode (create_refresh_token now u.email none))) s1
          rcases hupd : update_token u
              (some (encode (create_refresh_token now u.email none))) s1 with ⟨r, s2⟩
          rw [hupd] at hd
          cases r with
          | error e =>
              simp only
              rcases hd with hd | hd
              · rw [hd, hdb]; exact dbConfirmPreserve_refl s.db
              · rw [hd, hdb]
                exact dbConfirmPreserve_update s.db u.email _ (fun v => rfl)
          | ok r =>
              simp only
              rcases hd with hd | hd
              · rw [hd, hdb]; exact dbConfirmPreserve_refl s.db
              · rw [hd, hdb]
                exact dbConfirmPreserve_update s.db u.email _ (fun v => rfl)

/-- The refresh handler preserves the confirmed flag of every row. -/
theorem refresh_confirmPreserve (encode : TokenClaims → String) (now : Nat)
    (j : Except Unit Payload) (t : String) (s : State) :
    dbConfirmPreserve s.db (refresh_token encode now j t s).2.db := by
  rcases hd : decode_refresh_token j with e | oe
  · simp only [refresh_token, hd]
    exact dbConfirmPreserve_refl s.db
  · cases oe with
    | none =>
        simp only [refresh_token, hd]
        exact dbConfirmPreserve_refl s.db
    | some email =>
        have hdb := get_user_by_email_db email s
        rcases hpq : get_user_by_email email s with ⟨uo, s1⟩
        rw [hpq] at hdb
        cases uo with
        | none =>
            simp only [refresh_token, hd, hpq]
            rw [hdb]
            exact dbConfirmPreserve_refl s.db
        | some u =>
            simp only [refresh_token, hd, hpq]
            by_cases hne : u.refresh_token ≠ some t
            · rw [if_pos hne]
              have hud := update_token_db u none s1
              rcases hupd : update_token u none s1 with ⟨r, s2⟩
              rw [hupd] at hud
              cases r with
              | error e =>
                  simp only
                  rcases hud with hud | hud
                  · rw [hud, hdb]; exact dbConfirmPreserve_refl s.db
                  · rw [hud, hdb]
                    exact dbConfirmPreserve_update s.db u.email _ (fun v => rfl)
              | ok r =>
                  simp only
                  rcases hud with hud | hud
                  · rw [hud, hdb]; exact dbConfirmPreserve_refl s.db
                  · rw [hud, hdb]
                    exact dbConfirmPreserve_update s.db u.email _ (fun v => rfl)
            · rw [if_neg hne]
              have hud := update_token_db u
                (some (encode (create_refresh_token now email none))) s1
              rcases hupd : update_token u
                  (some (encode (create_refresh_token now email none))) s1 with ⟨r, s2⟩
              rw [hupd] at hud
              cases r with
              | error e =>
                  simp only
                  rcases hud with hud | hud
                  · rw [hud, hdb]; exact dbConfirmPreserve_refl s.db
                  · rw [hud, hdb]
                    exact dbConfirmPreserve_update s.db u.email _ (fun v => rfl)
              | ok r =>
                  simp only
                  rcases hud with hud | hud
                  · rw [hud, hdb]; exact dbConfirmPreserve_refl s.db
                  · rw [hud, hdb]
                    exact dbConfirmPreserve_update s.db u.email _ (fun v => rfl)

/-- The resend-confirmation handler never changes the database. -/
theorem request_email_db (e : String) (s : State) :
    (request_email e s).2.db = s.db := by
  have hdb := get_user_by_email_db e s
  rcases hpq : get_user_by_email e s with ⟨uo, s1⟩
  rw [hpq] at hdb
  cases uo with
  | none => simp only [request_email, hpq]; exact hdb
  | some u =>
      by_cases hc : u.confirmed <;> simp [request_email, hpq, hc] <;> exact hdb

/-- The password-reset request handler never changes the database. -/
theorem password_reset_db (e : String) (s : State) :
    (password_reset e s).2.db = s.db :=
  get_user_by_email_db e s

/-- The password-reset confirmation handler never changes the database. -/
theorem confirm_password_reset_db (j : Except Unit Payload) (s : State) :
    (confirm_password_reset j s).2.db = s.db := by
  rcases hd : get_email_from_token j with e | oe
  · simp only [confirm_password_reset, hd]
  · cases oe with
    | none => simp only [confirm_password_reset, hd]
    | some email =>
        have hdb := get_user_by_email_db email s
        rcases hpq : get_user_by_email email s with ⟨uo, s1⟩
        rw [hpq] at hdb
        cases uo <;> simp only [confirm_password_reset, hd, hpq] <;> exact hdb

/-- The new-password handler preserves the confirmed flag of every row. -/
theorem new_password_confirmPreserve (hash : String → String) (e pw : String)
    (s : State) : dbConfirmPreserve s.db (new_password hash e pw s).2.db := by
  have hdb := get_user_by_email_db e s
  rcases hpq : get_user_by_email e s with ⟨uo, s1⟩
  rw [hpq] at hdb
  cases uo with
  | none =>
      simp only [new_password, hpq]
      rw [hdb]
      exact dbConfirmPreserve_refl s.db
  | some u =>
      simp only [new_password, hpq]
      have hud := update_password_db u (hash pw) s1
      rcases hupd : update_password u (hash pw) s1 with ⟨r, s2⟩
      rw [hupd] at hud
      cases r with
      | error e =>
          simp only
          rcases hud with hud | hud
          · rw [hud, hdb]; exact dbConfirmPreserve_refl s.db
          · rw [hud, hdb]
            exact dbConfirmPreserve_update s.db u.email _ (fun v => rfl)
      | ok r =>
          simp only
          rcases hud with hud | hud
          · rw [hud, hdb]; exact dbConfirmPreserve_refl s.db
          · rw [hud, hdb]
            exact dbConfirmPreserve_update s.db u.email _ (fun v => rfl)

/-- The avatar update preserves the confirmed flag of every row. -/
theorem update_avatar_confirmPreserve (e url : String) (s : State) :
    dbConfirmPreserve s.db (update_avatar e url s).2.db := by
  rcases update_avatar_db e url s with hud | hud
  · rw [hud]; exact dbConfirmPreserve_refl s.db
  · rw [hud]; exact dbConfirmPreserve_update s.db e _ (fun v => rfl)

/-- The email-confirmation handler is monotone on the confirmed flag. -/
theorem confirmed_email_route_confirmMono (j : Except Unit Payload) (s : State) :
    dbConfirmMono s.db (confirmed_email_route j s).2.db := by
  rcases hd : get_email_from_token j with e | oe
  · simp only [confirmed_email_route, hd]
    exact dbConfirmMono_of_preserve (dbConfirmPreserve_refl s.db)
  · cases oe with
    | none =>
        simp only [confirmed_email_route, hd]
        exact dbConfirmMono_of_preserve (dbConfirmPreserve_refl s.db)
    | some email =>
        have hdb := get_user_by_email_db email s
        rcases hpq : get_user_by_email email s with ⟨uo, s1⟩
        rw [hpq] at hdb
        cases uo with
        | none =>
            simp only [confirmed_email_route, hd, hpq]
            rw [hdb]
            exact dbConfirmMono_of_preserve (dbConfirmPreserve_refl s.db)
        | some u =>
            simp only [confirmed_email_route, hd, hpq]
            by_cases hc : u.confirmed
            · rw [if_pos hc]
              rw [hdb]
              exact dbConfirmMono_of_preserve (dbConfirmPreserve_refl s.db)
            · rw [if_neg hc]
              have hud := confirmed_email_db email s1
              rcases hupd : confirmed_email email s1 with ⟨r, s2⟩
              rw [hupd] at hud
              cases r with
              | error e =>
                  simp only
                  rcases hud with hud | hud
                  · rw [hud, hdb]
                    exact dbConfirmMono_of_preserve (dbConfirmPreserve_refl s.db)
                  · rw [hud, hdb]
                    exact dbConfirmMono_update s.db email _ (fun v hv => rfl)
              | ok r =>
                  simp only
                  rcases hud with hud | hud
                  · rw [hud, hdb]
                    exact dbConfirmMono_of_preserve (dbConfirmPreserve_refl s.db)
                  · rw [hud, hdb]
                    exact dbConfirmMono_update s.db email _ (fun v hv => rfl)

/-- Every operation other than email confirmation preserves the confirmed
flag of every row. -/
theorem stepState_confirmPreserve (env : Env) (op : Op) (s : State)
    (hop : ∀ j, op ≠ Op.opConfirmedEmail j) :
    dbConfirmPreserve s.db (stepState env op s).db := by
  cases op with
  | opSignup body => exact signup_confirmPreserve env.hash body s
  | opLogin now u p => exact login_confirmPreserve env.verify env.encode now u p s
  | opRefresh now j t => exact refresh_confirmPreserve env.encode now j t s
  | opConfirmedEmail j => exact absurd rfl (hop j)
  | opRequestEmail e =>
      simp only [stepState]
      rw [request_email_db]
      exact dbConfirmPreserve_refl s.db
  | opPasswordReset e =>
      simp only [stepState]
      rw [password_reset_db]
      exact dbConfirmPreserve_refl s.db
  | opConfirmPasswordReset j =>
      simp only [stepState]
      rw [confirm_password_reset_db]
      exact dbConfirmPreserve_refl s.db
  | opNewPassword e p => exact new_password_confirmPreserve env.hash e p s
  | opUpdateAvatar e u => exact update_avatar_confirmPreserve e u s

/-- Every operation whatsoever is monotone on the confirmed flag. -/
theorem stepState_confirmMono (env : Env) (op : Op) (s : State) :
    dbConfirmMono s.db (stepState env op s).db := by
  cases op with
  | opConfirmedEmail j => exact confirmed_email_route_confirmMono j s
  | opSignup body =>
      exact dbConfirmMono_of_preserve (signup_confirmPreserve env.hash body s)
  | opLogin now u p =>
      exact dbConfirmMono_of_preserve
        (login_confirmPreserve env.verify env.encode now u p s)
  | opRefresh now j t =>
      exact dbConfirmMono_of_preserve (refresh_confirmPreserve env.encode now j t s)
  | opRequestEmail e =>
      simp only [stepState]
      rw [request_email_db]
      exact dbConfirmMono_of_preserve (dbConfirmPreserve_refl s.db)
  | opPasswordReset e =>
      simp only [stepState]
      rw [password_reset_db]
      exact dbConfirmMono_of_preserve (dbConfirmPreserve_refl s.db)
  | opConfirmPasswordReset j =>
      simp only [stepState]
      rw [confirm_password_reset_db]
      exact dbConfirmMono_of_preserve (dbConfirmPreserve_refl s.db)
  | opNewPassword e p =>
      exact dbConfirmMono_of_preserve (new_password_confirmPreserve env.hash e p s)
  | opUpdateAvatar e u =>
      exact dbConfirmMono_of_preserve (update_avatar_confirmPreserve e u s)

/-! ### Claim C7: monotonicity of the confirmed flag -/

/-- C7: a user record is created with confirmed = false; once a row's
confirmed flag is true no operation of the system ever makes it false
again; only the email-confirmation operation changes the flag at all; and
when the looked-up user is already confirmed, the confirm-email handler
returns the already-confirmed message without mutating the database. -/
theorem confirmed_flag_monotone :
    (∀ (body : UserModel) (s : State),
       (create_user body s).1.confirmed = false ∧
       (create_user body s).2.db = s.db ++ [(create_user body s).1]) ∧
    (∀ (env : Env) (op : Op) (s : State) (i : Nat) (u : UserRec),
       s.db[i]? = some u → u.confirmed = true →
       ∃ u', (stepState env op s).db[i]? = some u' ∧ u'.confirmed = true) ∧
    (∀ (env : Env) (op : Op) (s : State) (i : Nat) (u u' : UserRec),
       (∀ j, op ≠ Op.opConfirmedEmail j) →
       s.db[i]? = some u → (stepState env op s).db[i]? = some u' →
       u'.confirmed = u.confirmed) ∧
    (∀ (p : Payload) (s : State) (E : String) (user : UserRec),
       p.sub = some (some E) →
       (get_user_by_email E s).1 = some user → user.confirmed = true →
       (confirmed_email_route (.ok p) s).1 = .ok "Your email is already confirmed" ∧
       (confirmed_email_route (.ok p) s).2.db = s.db) := by
  refine ⟨fun body s => ⟨rfl, rfl⟩, ?_, ?_, ?_⟩
  · intro env op s i u hu hc
    obtain ⟨u', h1, h2⟩ := stepState_confirmMono env op s i u hu
    exact ⟨u', h1, h2 hc⟩
  · intro env op s i u u' hop hu hu'
    obtain ⟨u'', h1, h2⟩ := stepState_confirmPreserve env op s hop i u hu
    have he : u'' = u' := Option.some.inj (h1.symm.trans hu')
    rw [← he]
    exact h2
  · intro p s E user hsub hlk hc
    have hget : get_email_from_token (.ok p) = .ok (some E) := by
      simp [get_email_from_token, hsub]
    have hdb := get_user_by_email_db E s
    rcases hpq : get_user_by_email E s with ⟨uo, s1⟩
    rw [hpq] at hdb hlk
    have hlk' : uo = some user := hlk
    subst hlk'
    constructor
    · simp [confirmed_email_route, hget, hpq, hc]
    · simp only [confirmed_email_route, hget, hpq]
      rw [if_pos hc]
      exact hdb

/-- Witness for C7: an unrelated call keeps the demo user confirmed, and a
confirm-email call on an already confirmed user answers idempotently. -/
theorem confirmed_flag_monotone_witness :
    (∃ u', (stepState envDemo (.opRequestEmail "b@x.com") stateA).db[0]? = some u' ∧
       u'.confirmed = true) ∧
    (confirmed_email_route (.ok (refreshPayload "a@x.com")) stateA).1 =
      .ok "Your email is already confirmed" :=
  ⟨confirmed_flag_monotone.2.1 envDemo (.opRequestEmail "b@x.com") stateA 0 userA
      (by decide) (by decide),
   (confirmed_flag_monotone.2.2.2 (refreshPayload "a@x.com") stateA "a@x.com" userA
      (by decide) (by decide) (by decide)).1⟩
